import Mathlib

/-!
Shallow embedding of the analytics layer of `src/app/streamlit_app.py`
(temperature statistics dashboard for Peruvian districts).

Modelling conventions:
* A pandas `DataFrame` row becomes a `Row`; a `DataFrame` becomes `List Row`.
* `NaN` / missing numeric entries become `Option ℚ` with `none`
  (pandas drops `NaN` from `quantile`, `count`, `nsmallest`/`nlargest`,
  and `NaN <= x` is `False`).
* Machine floats become `ℚ`: the analytics only compares, interpolates and
  counts, so exact rationals capture the intended values.
* `st.error` + `return None, None` failure paths of `load_data` become a
  `LoadError` sum; the actual returned pair is reproduced by `load_data`.
-/

namespace TminPeru

/-- One row of the district statistics table (`estadisticas_temperatura_distritos.csv`).
Numeric cells are `Option ℚ`: `none` models a missing/NaN entry. -/
structure Row where
  departamen : String
  provincia : String
  distrito : String
  mean : Option ℚ
  rmin : Option ℚ
  rmax : Option ℚ
  std : Option ℚ
  pixelCount : Option ℚ
deriving Repr, DecidableEq

/-- The district table: ordered sequence of rows, as a pandas DataFrame. -/
abbrev Table := List Row

/-- The national summary-metrics record (`metricas_resumen.json`). -/
structure Metricas where
  total_distritos : Nat
  distritos_alto_riesgo : Nat
  temp_media_nacional : ℚ
  temp_minima_extrema : ℚ
  temp_maxima_extrema : ℚ
  distrito_mas_frio : String
  distrito_mas_calido : String
  umbral_alto_riesgo : ℚ
deriving Repr, DecidableEq

/-! ## Loader (`load_data`, lines 71–96) -/

/-- Outcome of the two file reads (`pd.read_csv` and `json.load`) before
any validation runs: both succeed, a file is missing (`FileNotFoundError`),
or some other exception is raised while reading/parsing. -/
inductive ReadOutcome
  | ok
  | fileMissing
  | otherFailure
deriving Repr, DecidableEq

/-- A tabular source as `load_data` sees it: the read outcome, the column
names of the CSV, the parsed rows, and the parsed metrics document. -/
structure LoadSource where
  read : ReadOutcome
  columns : List String
  rows : Table
  metrics : Metricas

/-- The typed failure modes of `load_data` (each is an `st.error` message
followed by `return None, None` in the code). -/
inductive LoadError
  | fileNotFound
  | otherException
  | emptyDataset
  | schemaError
deriving Repr, DecidableEq

/-- `required_columns` of `load_data` (line 84). -/
def requiredColumns : List String :=
  ["DEPARTAMEN", "PROVINCIA", "DISTRITO", "mean", "min", "max", "std"]

/-- `missing_cols = [col for col in required_columns if col not in stats.columns]`
(line 85). -/
def missingCols (cols : List String) : List String :=
  requiredColumns.filter (fun c => ¬ cols.contains c)

/-- `load_data` with its failure mode made explicit, following the code's
order exactly: file reads first (lines 75–77, exceptions caught at 91–96),
then the `stats.empty` check (line 80), then the missing-columns check
(lines 84–88), then success (line 90). -/
def load_result (src : LoadSource) : Except LoadError (Table × Metricas) :=
  match src.read with
  | .fileMissing => .error .fileNotFound
  | .otherFailure => .error .otherException
  | .ok =>
    if src.rows.isEmpty then .error .emptyDataset
    else if ¬ (missingCols src.columns).isEmpty then .error .schemaError
    else .ok (src.rows, src.metrics)

/-- The pair actually returned by `load_data`: `(stats, metricas)` on
success, `(None, None)` on every failure path. -/
def load_data (src : LoadSource) : Option Table × Option Metricas :=
  match load_result src with
  | .error _ => (none, none)
  | .ok (t, m) => (some t, some m)

/-- `main`'s guard (lines 566–570): analytics pages run only when the first
component of `load_data` is not `None`. -/
def mainRunsAnalytics (src : LoadSource) : Bool :=
  match load_data src with
  | (none, _) => false
  | (some _, _) => true

/-! ## Risk classifier -/

/-- The non-missing values of the `mean` column, in row order
(pandas drops `NaN` before `quantile`/`nsmallest`/`count`). -/
def meansOf (t : Table) : List ℚ := t.filterMap Row.mean

/-- Pandas `Series.quantile(q)` with the default `linear` interpolation:
drop missing values, sort ascending, and interpolate between the closest
ranks at position `h = q * (n - 1)`.  `none` on an all-missing column
(pandas returns `NaN` there). -/
def interpQuantile (xs : List ℚ) (q : ℚ) : Option ℚ :=
  let s := xs.insertionSort (· ≤ ·)
  if s.isEmpty then none
  else
    let n := s.length
    let h : ℚ := q * ((n : ℚ) - 1)
    let i : ℕ := (Int.toNat ⌊h⌋)
    let g : ℚ := h - (i : ℚ)
    let lo := s.getD i 0
    let hi := s.getD (min (i + 1) (n - 1)) 0
    some (lo + g * (hi - lo))

/-- `umbral_riesgo = datos['mean'].quantile(0.1)` (line 190). -/
def umbralRiesgo (datos : Table) : Option ℚ :=
  interpQuantile (meansOf datos) (1/10)

/-- Membership test `datos['mean'] <= u` for one row: a missing `mean`
compares `False` against any threshold, as `NaN <= u` does in pandas. -/
def meanLe (r : Row) (u : ℚ) : Bool :=
  match r.mean with
  | some v => decide (v ≤ u)
  | none => false

/-- `datos[datos['mean'] <= u]`: the high-risk subset at threshold `u`
(lines 191 and 298). -/
def classifyHighRisk (datos : Table) (u : ℚ) : Table :=
  datos.filter (fun r => meanLe r u)

/-! ## Ranker (`nsmallest` / `nlargest`, lines 164 and 173) -/

/-- `datos.nsmallest(k, 'mean')` with the default `keep='first'`:
rows with missing `mean` are dropped, the remainder is sorted ascending by
`mean` keeping original order among ties, and the first `k` are returned. -/
def nsmallest (k : Nat) (datos : Table) : Table :=
  (((datos.filter (fun r => r.mean.isSome)).insertionSort
    (fun a b => a.mean.getD 0 ≤ b.mean.getD 0)).take k)

/-- `datos.nlargest(k, 'mean')` with the default `keep='first'`:
rows with missing `mean` are dropped, the remainder is sorted descending by
`mean` keeping original order among ties, and the first `k` are returned. -/
def nlargest (k : Nat) (datos : Table) : Table :=
  (((datos.filter (fun r => r.mean.isSome)).insertionSort
    (fun a b => b.mean.getD 0 ≤ a.mean.getD 0)).take k)

/-- The ascending ranking key is a total relation on rows. -/
instance : IsTotal Row (fun a b => a.mean.getD 0 ≤ b.mean.getD 0) :=
  ⟨fun _ _ => le_total _ _⟩

/-- The ascending ranking key is transitive on rows. -/
instance : IsTrans Row (fun a b => a.mean.getD 0 ≤ b.mean.getD 0) :=
  ⟨fun _ _ _ h1 h2 => le_trans h1 h2⟩

/-- The descending ranking key is a total relation on rows. -/
instance : IsTotal Row (fun a b => b.mean.getD 0 ≤ a.mean.getD 0) :=
  ⟨fun _ _ => le_total _ _⟩

/-- The descending ranking key is transitive on rows. -/
instance : IsTrans Row (fun a b => b.mean.getD 0 ≤ a.mean.getD 0) :=
  ⟨fun _ _ _ h1 h2 => le_trans h2 h1⟩

/-! ## Aggregator (`groupby('DEPARTAMEN')`, lines 116, 182, 298) -/

/-- `datos.groupby('DEPARTAMEN')['mean'].count()` for one department:
the number of rows of that department with a non-missing `mean`
(pandas `count` excludes `NaN`). -/
def aggCount (datos : Table) (d : String) : Nat :=
  (datos.filter (fun r => r.departamen = d ∧ r.mean.isSome)).length

/-- The distinct department keys of the grouped result (every department
occurring in the table gets a group, even if all its means are missing). -/
def deptKeys (datos : Table) : Finset String :=
  (datos.map Row.departamen).toFinset

/-- The per-department `count` column of
`datos.groupby('DEPARTAMEN')['mean'].agg(['count', 'mean'])` (line 182),
summed over all departments of the table. -/
def sumAggCounts (datos : Table) : Nat :=
  ∑ d ∈ deptKeys datos, aggCount datos d

/-- `datos.groupby('DEPARTAMEN').size()` on the high-risk subset, for one
department: `size` counts every row of the group (line 298). -/
def riskCountByDept (datos : Table) (u : ℚ) (d : String) : Nat :=
  ((classifyHighRisk datos u).filter (fun r => r.departamen = d)).length

/-- The group keys of `groupby('DEPARTAMEN')` with the default
`sort=True`: distinct departments of the subset in ascending order. -/
def sortedDeptKeys (sub : Table) : List String :=
  ((sub.map Row.departamen).dedup).insertionSort (· ≤ ·)

/-- The scan behind `Series.idxmax`: walk the index in order, replacing
the current best label only on a strictly larger value, so the first
occurrence of the maximum is kept. -/
def runMax (f : String → Nat) (a : String) (ds : List String) : String :=
  ds.foldl (fun best x => if f best < f x then x else best) a

/-- `Series.idxmax`: the index label of the first occurrence of the
maximum value; `none` on an empty series (where pandas raises). -/
def idxmaxBy (f : String → Nat) : List String → Option String
  | [] => none
  | d :: ds => some (runMax f d ds)

/-- `datos[datos['mean'] <= umbral].groupby('DEPARTAMEN').size().idxmax()`
(line 298): the most affected department. -/
def deptMasAfectado (datos : Table) (u : ℚ) : Option String :=
  idxmaxBy (riskCountByDept datos u) (sortedDeptKeys (classifyHighRisk datos u))

/-- `datos[datos['mean'] <= umbral].groupby('DEPARTAMEN').size().max()`
(line 299): its number of high-risk districts. -/
def distritosAfectados (datos : Table) (u : ℚ) : Option Nat :=
  match (sortedDeptKeys (classifyHighRisk datos u)).map
      (riskCountByDept datos u) with
  | [] => none
  | c :: cs => some (cs.foldl max c)

/-! ## Executive summary (`show_executive_summary`, lines 204–319) -/

/-- The data-derived values `show_executive_summary` displays.  Every
metric field is read directly from the `metricas` record; only the
"most vulnerable department" box recomputes anything from the table,
using the record's stored threshold `umbral_alto_riesgo`. -/
structure ExecSummaryView where
  totalShown : Nat
  highRiskShown : Nat
  mediaShown : ℚ
  extremaMinShown : ℚ
  extremaMaxShown : ℚ
  distritoMasFrioShown : String
  umbralShown : ℚ
  deptMasAfectadoShown : Option String
  distritosAfectadosShown : Option Nat
deriving Repr, DecidableEq

/-- `show_executive_summary(metricas, datos)`: the displayed values.
Lines 215, 224, 234–235, 277, 291–292 read the record verbatim;
lines 298–299 recompute the per-department risk counts from `datos`
with the stored threshold.  No branch compares the record against a
recomputation. -/
def show_executive_summary (metricas : Metricas) (datos : Table) :
    ExecSummaryView where
  totalShown := metricas.total_distritos
  highRiskShown := metricas.distritos_alto_riesgo
  mediaShown := metricas.temp_media_nacional
  extremaMinShown := metricas.temp_minima_extrema
  extremaMaxShown := metricas.temp_maxima_extrema
  distritoMasFrioShown := metricas.distrito_mas_frio
  umbralShown := metricas.umbral_alto_riesgo
  deptMasAfectadoShown := deptMasAfectado datos metricas.umbral_alto_riesgo
  distritosAfectadosShown := distritosAfectados datos metricas.umbral_alto_riesgo

/-! ## `main`'s department filter and routing (lines 587–602) -/

/-- Lines 591–594: `datos_filtrados = datos[datos['DEPARTAMEN'] == dept_filtro]`
when the sidebar filter is not `"Todos"`, else the full table. -/
def applyFilter (dept_filtro : String) (datos : Table) : Table :=
  if dept_filtro ≠ "Todos" then datos.filter (fun r => r.departamen = dept_filtro)
  else datos

/-- The risk threshold actually used by the ranking visualization for a
given sidebar filter: `main` passes `datos_filtrados` to
`show_advanced_visualizations` (line 602), which passes it to
`create_ranking_visualization` (line 411), which computes
`datos['mean'].quantile(0.1)` on its argument (line 190). -/
def mainRankingUmbral (datos : Table) (dept_filtro : String) : Option ℚ :=
  umbralRiesgo (applyFilter dept_filtro datos)

/-- The spec's description of `threshold`: the "quantile of `mean` via
linear interpolation between closest ranks", applied to an ascending
sequence `s` of the non-missing means.  The rank position `h = q·(n−1)`
lies between the closest ranks `⌊h⌋` and `⌊h⌋+1`, and the value is
interpolated linearly between them. -/
def rankInterp (s : List ℚ) (q : ℚ) : ℚ :=
  let h : ℚ := q * ((s.length : ℚ) - 1)
  let i : ℕ := Int.toNat ⌊h⌋
  s.getD i 0 +
    (h - (i : ℚ)) * (s.getD (min (i + 1) (s.length - 1)) 0 - s.getD i 0)

/-! ## Concrete tables and records used as test inputs -/

/-- A row with the given department, district and `mean`; the remaining
cells are irrelevant to the analytics under study and left missing. -/
def mkRow (d dist : String) (m : Option ℚ) : Row where
  departamen := d
  provincia := "P"
  distrito := dist
  mean := m
  rmin := none
  rmax := none
  std := none
  pixelCount := none

/-- A syntactically well-formed metrics record for load scenarios. -/
def sampleMetricas : Metricas where
  total_distritos := 3
  distritos_alto_riesgo := 1
  temp_media_nacional := 2
  temp_minima_extrema := -5
  temp_maxima_extrema := 10
  distrito_mas_frio := "A"
  distrito_mas_calido := "B"
  umbral_alto_riesgo := -18/5

/-- The column header of a schema-valid CSV. -/
def fullColumns : List String :=
  ["DEPARTAMEN", "PROVINCIA", "DISTRITO", "mean", "min", "max", "std",
   "count", "percentile_10", "percentile_90", "range"]

/-- A CSV header missing exactly the `std` column. -/
def columnsNoStd : List String :=
  ["DEPARTAMEN", "PROVINCIA", "DISTRITO", "mean", "min", "max",
   "count", "percentile_10", "percentile_90", "range"]

/-- The spec's scenario table:
`[{dist:"A",dept:"X",mean:-5}, {dist:"B",dept:"X",mean:10}, {dist:"C",dept:"Y",mean:2}]`. -/
def scenarioT : Table :=
  [mkRow "X" "A" (some (-5)), mkRow "X" "B" (some 10), mkRow "Y" "C" (some 2)]

/-- A readable source with zero data rows whose header misses `std`. -/
def emptyNoStdSource : LoadSource where
  read := .ok
  columns := columnsNoStd
  rows := []
  metrics := sampleMetricas

/-- A readable source with one data row whose header misses `std`. -/
def oneRowNoStdSource : LoadSource where
  read := .ok
  columns := columnsNoStd
  rows := [mkRow "X" "A" (some (-5))]
  metrics := sampleMetricas

/-- A readable, schema-valid source with zero data rows. -/
def emptyValidSource : LoadSource where
  read := .ok
  columns := fullColumns
  rows := []
  metrics := sampleMetricas

/-- A two-department table on which the 10th percentile of the
department-filtered subset differs from the full-table one. -/
def twoDeptT : Table :=
  [mkRow "X" "A" (some 0), mkRow "X" "B" (some 10), mkRow "Y" "C" (some 100)]

/-- A metrics record that is internally inconsistent with `oneRowT`:
it reports 5 high-risk districts while the table has none at its
stored threshold. -/
def inconsistentMetricas : Metricas where
  total_distritos := 1
  distritos_alto_riesgo := 5
  temp_media_nacional := 0
  temp_minima_extrema := 0
  temp_maxima_extrema := 0
  distrito_mas_frio := "A"
  distrito_mas_calido := "A"
  umbral_alto_riesgo := -10

/-- A one-row table whose single mean is 0. -/
def oneRowT : Table := [mkRow "X" "A" (some 0)]

/-- A one-row table whose single `mean` cell is missing. -/
def missingMeanT : Table := [mkRow "X" "A" none]

/-- A table with two rows tied on `mean` whose district names are in
descending order, plus a row with a missing `mean`. -/
def tiedMeansT : Table :=
  [mkRow "X" "B" (some 5), mkRow "X" "A" (some 5), mkRow "Y" "C" none]

/-- A table whose two departments tie at one high-risk district each
below the threshold 5. -/
def tiedDeptsT : Table := [mkRow "Y" "A" (some 0), mkRow "X" "B" (some 0)]

/-- A metrics record whose stored threshold is 5. -/
def umbralCincoMetricas : Metricas where
  total_distritos := 2
  distritos_alto_riesgo := 2
  temp_media_nacional := 0
  temp_minima_extrema := 0
  temp_maxima_extrema := 0
  distrito_mas_frio := "A"
  distrito_mas_calido := "B"
  umbral_alto_riesgo := 5

end TminPeru

namespace TminPeru

/-!
## Claims

Each claim of the specification is settled by one theorem below.
-/

/-- C10: `load_data` returns both results or neither: on every failure
path it returns `(None, None)`, never a pair with exactly one of the
table and the metrics record loaded, so `main`'s single check that the
table is `None` suffices to stop all analytics. -/
theorem load_data_all_or_nothing (src : LoadSource) :
    (load_data src = (none, none) ∨
      ∃ t m, load_data src = (some t, some m)) ∧
    ((load_data src).1 = none ↔ (load_data src).2 = none) := by
  unfold load_data
  cases load_result src with
  | error e => simp
  | ok tm => simp

/-- C3 counterexample: a readable source with zero rows whose header
misses `std` is rejected by the `stats.empty` check, which runs before
the missing-columns check, so it fails with the empty-dataset error and
not with the schema error the claim requires. -/
theorem load_missing_std_zero_rows_not_schemaError :
    missingCols columnsNoStd = ["std"] ∧
    load_result emptyNoStdSource = .error .emptyDataset ∧
    LoadError.emptyDataset ≠ LoadError.schemaError :=
  ⟨rfl, rfl, by decide⟩

/-- C3 amended: for every readable source with at least one row that is
missing a required column, loading fails with the schema error and
returns `(None, None)` — no partially validated table; for a zero-row
source the empty-dataset check fires first instead. -/
theorem load_missing_column_schemaError (src : LoadSource)
    (hread : src.read = .ok) (hrows : src.rows ≠ [])
    (hmiss : missingCols src.columns ≠ []) :
    load_result src = .error .schemaError ∧ load_data src = (none, none) := by
  have h1 : load_result src = .error .schemaError := by
    unfold load_result
    rw [hread]
    simp [List.isEmpty_iff, hrows, hmiss]
  exact ⟨h1, by unfold load_data; rw [h1]⟩

/-- C3 witness: the one-row source missing `std` is concretely rejected
with the schema error. -/
theorem load_missing_column_schemaError_witness :
    load_result oneRowNoStdSource = .error .schemaError ∧
    load_data oneRowNoStdSource = (none, none) :=
  load_missing_column_schemaError oneRowNoStdSource rfl (by decide)
    (by decide)

/-- C9: a readable source that passes schema validation but has zero
rows fails with the empty-dataset error, `load_data` returns
`(None, None)`, and `main` runs no analytics on it. -/
theorem load_empty_dataset_terminal (src : LoadSource)
    (hread : src.read = .ok) (hrows : src.rows = [])
    (hcols : missingCols src.columns = []) :
    load_result src = .error .emptyDataset ∧
    load_data src = (none, none) ∧
    mainRunsAnalytics src = false := by
  have h1 : load_result src = .error .emptyDataset := by
    unfold load_result
    rw [hread, hrows]
    rfl
  have h2 : load_data src = (none, none) := by unfold load_data; rw [h1]
  exact ⟨h1, h2, by unfold mainRunsAnalytics; rw [h2]⟩

/-- C9 witness: the schema-valid zero-row source is concretely terminal. -/
theorem load_empty_dataset_terminal_witness :
    load_result emptyValidSource = .error .emptyDataset ∧
    load_data emptyValidSource = (none, none) ∧
    mainRunsAnalytics emptyValidSource = false :=
  load_empty_dataset_terminal emptyValidSource rfl rfl (by decide)

/-- C5 counterexample: on the spec's scenario table the threshold is
exactly −18/5 = −3.6, which is 1/5 away from the −3.8 the claim
states, so it is not approximately −3.8. -/
theorem threshold_scenario_not_neg38 :
    umbralRiesgo scenarioT = some (-18/5) ∧
    (-18/5 : ℚ) ≠ -38/10 ∧
    |(-18/5 : ℚ) - (-38/10)| = 1/5 := by
  refine ⟨?_, by norm_num, by norm_num⟩
  norm_num [umbralRiesgo, interpQuantile, meansOf, scenarioT, mkRow,
    List.insertionSort, List.orderedInsert, Int.floor_eq_zero_iff,
    Set.mem_Ico]

/-- C5 amended: `umbralRiesgo` is the 0.10 quantile of `mean` by linear
interpolation between closest ranks over the non-missing values (any
ascending arrangement `s` of them gives the interpolated value), and on
the scenario table with means −5, 10, 2 it equals −18/5 ≈ −3.6, not
−3.8. -/
theorem umbralRiesgo_rank_interpolation (t : Table) (s : List ℚ)
    (hp : s.Perm (meansOf t)) (hs : s.Sorted (· ≤ ·)) (hne : s ≠ []) :
    umbralRiesgo t = some (rankInterp s (1/10)) ∧
    umbralRiesgo scenarioT = some (-18/5) := by
  constructor
  · have hsort : (meansOf t).insertionSort (· ≤ ·) = s := by
      refine List.eq_of_perm_of_sorted ?_ ?_ hs
      · exact (List.perm_insertionSort _ _).trans hp.symm
      · exact List.sorted_insertionSort _ _
    have hne' : s.isEmpty = false := by
      simpa [List.isEmpty_iff] using hne
    simp only [umbralRiesgo, interpQuantile, rankInterp, hsort, hne',
      Bool.false_eq_true, if_false]
  · norm_num [umbralRiesgo, interpQuantile, meansOf, scenarioT, mkRow,
      List.insertionSort, List.orderedInsert, Int.floor_eq_zero_iff,
      Set.mem_Ico]

/-- C5 witness: the theorem applied to the scenario table and the
sorted arrangement [−5, 2, 10] of its means. -/
theorem umbralRiesgo_rank_interpolation_witness :
    umbralRiesgo scenarioT = some (rankInterp [-5, 2, 10] (1/10)) ∧
    umbralRiesgo scenarioT = some (-18/5) :=
  umbralRiesgo_rank_interpolation scenarioT [-5, 2, 10]
    (by simp [meansOf, scenarioT, mkRow]; decide) (by decide) (by decide)

/-- C1 counterexample: with the department filter "X" active, the
ranking visualization's threshold is the 10th percentile of the
filtered subset (1), not of the full table (2). -/
theorem filtered_threshold_counterexample :
    mainRankingUmbral twoDeptT "X" = some 1 ∧
    umbralRiesgo twoDeptT = some 2 ∧
    mainRankingUmbral twoDeptT "X" ≠ umbralRiesgo twoDeptT := by
  have h1 : mainRankingUmbral twoDeptT "X" = some 1 := by
    norm_num [mainRankingUmbral, applyFilter, umbralRiesgo, interpQuantile,
      meansOf, twoDeptT, mkRow, List.insertionSort, List.orderedInsert,
      Int.floor_eq_zero_iff, Set.mem_Ico]
  have h2 : umbralRiesgo twoDeptT = some 2 := by
    norm_num [umbralRiesgo, interpQuantile, meansOf, twoDeptT, mkRow,
      List.insertionSort, List.orderedInsert, Int.floor_eq_zero_iff,
      Set.mem_Ico]
  refine ⟨h1, h2, ?_⟩
  rw [h1, h2]
  norm_num

/-- C1 amended: the ranking visualization computes its threshold over
the table `main` hands it — the full table when the sidebar filter is
"Todos", the department-filtered subset otherwise — while the
executive summary displays the stored `umbral_alto_riesgo` of the
metrics record rather than recomputing anything. -/
theorem mainRankingUmbral_of_received_table (datos : Table) (d : String)
    (m : Metricas) (hd : d ≠ "Todos") :
    mainRankingUmbral datos "Todos" = umbralRiesgo datos ∧
    mainRankingUmbral datos d =
      umbralRiesgo (datos.filter (fun r => r.departamen = d)) ∧
    (show_executive_summary m datos).umbralShown = m.umbral_alto_riesgo := by
  refine ⟨?_, ?_, rfl⟩
  · simp [mainRankingUmbral, applyFilter]
  · simp [mainRankingUmbral, applyFilter, hd]

/-- C1 witness: the amended claim at the two-department table with the
filter "X". -/
theorem mainRankingUmbral_of_received_table_witness :
    mainRankingUmbral twoDeptT "Todos" = umbralRiesgo twoDeptT ∧
    mainRankingUmbral twoDeptT "X" =
      umbralRiesgo (twoDeptT.filter (fun r => r.departamen = "X")) ∧
    (show_executive_summary sampleMetricas twoDeptT).umbralShown =
      sampleMetricas.umbral_alto_riesgo :=
  mainRankingUmbral_of_received_table twoDeptT "X" sampleMetricas
    (by decide)

/-- C2 counterexample: with a metrics record reporting 5 high-risk
districts over a table that has 0 rows at or below the record's own
threshold, the executive summary still displays 5 — the record is not
reconciled with a recomputation from the table. -/
theorem summary_not_reconciled_counterexample :
    (show_executive_summary inconsistentMetricas oneRowT).highRiskShown = 5 ∧
    (classifyHighRisk oneRowT inconsistentMetricas.umbral_alto_riesgo).length
      = 0 ∧
    (5 : Nat) ≠ 0 :=
  ⟨rfl, by decide, by decide⟩

/-- C2 amended: the executive summary reports the precomputed metrics
record verbatim — the same values for every table it is shown with —
so internal consistency with the table is assumed, never checked; only
the "most vulnerable department" box recomputes from the table, using
the record's stored threshold. -/
theorem summary_reports_metrics_verbatim (m : Metricas) (datos : Table) :
    (show_executive_summary m datos).highRiskShown = m.distritos_alto_riesgo ∧
    (show_executive_summary m datos).totalShown = m.total_distritos ∧
    (show_executive_summary m datos).umbralShown = m.umbral_alto_riesgo ∧
    (show_executive_summary m datos).deptMasAfectadoShown =
      deptMasAfectado datos m.umbral_alto_riesgo :=
  ⟨rfl, rfl, rfl, rfl⟩

/-- Splitting a list's length along any key set that covers all of its
rows' departments. -/
theorem length_split_by_dept (l : List Row) (K : Finset String)
    (hK : ∀ r ∈ l, r.departamen ∈ K) :
    ∑ d ∈ K, (l.filter (fun r => r.departamen = d)).length = l.length := by
  induction l with
  | nil => simp
  | cons r l ih =>
    have hr : r.departamen ∈ K := hK r (List.mem_cons_self r l)
    have hl : ∀ x ∈ l, x.departamen ∈ K := fun x hx => hK x (List.mem_cons_of_mem r hx)
    have hterm : ∀ d ∈ K,
        ((r :: l).filter (fun x => x.departamen = d)).length =
          (if r.departamen = d then 1 else 0) +
            (l.filter (fun x => x.departamen = d)).length := by
      intro d _
      by_cases h : r.departamen = d <;>
        simp [List.filter_cons, h, Nat.add_comm]
    rw [Finset.sum_congr rfl hterm, Finset.sum_add_distrib, ih hl]
    have : (∑ d ∈ K, if r.departamen = d then 1 else 0) = 1 := by
      rw [Finset.sum_ite_eq K r.departamen (fun _ => (1 : ℕ))]
      simp [hr]
    rw [this]
    simp [List.length_cons, Nat.add_comm]

/-- C6 counterexample: on a one-row table whose `mean` is missing, the
per-department `count` values sum to 0 while the table has 1 row — the
excluded row is reflected in the aggregate's count, so the counts do
not sum to |T|. -/
theorem aggregate_count_sum_counterexample :
    sumAggCounts missingMeanT = 0 ∧
    missingMeanT.length = 1 ∧
    (0 : ℕ) ≠ 1 := by
  refine ⟨?_, rfl, by decide⟩
  simp [sumAggCounts, deptKeys, aggCount, missingMeanT, mkRow]

/-- C6 amended: the per-department `count` values of the aggregation,
summed over all departments, equal the number of rows with a
non-missing `mean` — rows excluded for a missing value are excluded
from each aggregate's count as well, so the sum equals |T| exactly when
no `mean` is missing (the missing rows account for the difference). -/
theorem sumAggCounts_eq_valid_rows (t : Table) :
    sumAggCounts t = (t.filter (fun r => r.mean.isSome)).length ∧
    sumAggCounts t + (t.filter (fun r => ¬ r.mean.isSome)).length =
      t.length := by
  have key : sumAggCounts t = (t.filter (fun r => r.mean.isSome)).length := by
    unfold sumAggCounts
    have hagg : ∀ d, aggCount t d =
        ((t.filter (fun r => r.mean.isSome)).filter
          (fun r => r.departamen = d)).length := by
      intro d
      unfold aggCount
      rw [List.filter_filter]
      congr 1
      apply List.filter_congr
      intro r _
      simp [Bool.and_comm]
    have hK : ∀ r ∈ t.filter (fun r => r.mean.isSome),
        r.departamen ∈ deptKeys t := by
      intro r hr
      have : r ∈ t := List.mem_of_mem_filter hr
      exact List.mem_toFinset.mpr (List.mem_map_of_mem Row.departamen this)
    calc ∑ d ∈ deptKeys t, aggCount t d
        = ∑ d ∈ deptKeys t,
            ((t.filter (fun r => r.mean.isSome)).filter
              (fun r => r.departamen = d)).length :=
          Finset.sum_congr rfl (fun d _ => hagg d)
      _ = (t.filter (fun r => r.mean.isSome)).length :=
          length_split_by_dept _ _ hK
  refine ⟨key, ?_⟩
  rw [key]
  have := List.length_eq_length_filter_add (l := t)
    (fun r => r.mean.isSome)
  rw [this]
  congr 1
  exact congrArg List.length
    (List.filter_congr (fun r _ => by cases r.mean <;> simp))

/-- C7: with the 10th-percentile threshold `u` of table `t`, a row is
classified high-risk exactly when it is a row of `t` whose `mean` is
present and at most `u`, and the number of high-risk rows equals the
number of rows of `t` satisfying `mean ≤ u`. -/
theorem classify_membership_and_count (t : Table) (u : ℚ)
    (hu : umbralRiesgo t = some u) :
    (∀ r, r ∈ classifyHighRisk t u ↔
      r ∈ t ∧ ∃ v, r.mean = some v ∧ v ≤ u) ∧
    (classifyHighRisk t u).length = t.countP (fun r => meanLe r u) := by
  constructor
  · intro r
    unfold classifyHighRisk
    rw [List.mem_filter]
    constructor
    · rintro ⟨hr, hb⟩
      refine ⟨hr, ?_⟩
      unfold meanLe at hb
      cases hm : r.mean with
      | none => rw [hm] at hb; exact absurd hb (by simp)
      | some v =>
        rw [hm] at hb
        exact ⟨v, rfl, by simpa using hb⟩
    · rintro ⟨hr, v, hm, hv⟩
      refine ⟨hr, ?_⟩
      unfold meanLe
      rw [hm]
      simpa using hv
  · rw [List.countP_eq_length_filter]
    rfl

/-- C7 witness: on the one-row table with mean 0 the threshold is 0,
the row is classified, and the counts agree. -/
theorem classify_membership_and_count_witness :
    mkRow "X" "A" (some 0) ∈ classifyHighRisk oneRowT 0 ∧
    (classifyHighRisk oneRowT 0).length =
      oneRowT.countP (fun r => meanLe r 0) := by
  have h := classify_membership_and_count oneRowT 0
    (by norm_num [umbralRiesgo, interpQuantile, meansOf, oneRowT, mkRow,
      List.insertionSort, List.orderedInsert])
  exact ⟨(h.1 _).mpr ⟨by decide, 0, rfl, le_refl 0⟩, h.2⟩

/-- Stability of insertion sort, seen through a filter: restricting the
sorted list to a class of mutually related elements gives those
elements back in their original order. -/
theorem filter_insertionSort_eq {α : Type} (r : α → α → Prop)
    [DecidableRel r] (p : α → Bool)
    (h : ∀ a b, p a = true → p b = true → r a b) (l : List α) :
    (l.insertionSort r).filter p = l.filter p := by
  induction l with
  | nil => rfl
  | cons x l ih =>
    have hsplit := List.takeWhile_append_dropWhile
      (p := fun b => decide (¬ r x b)) (l := l.insertionSort r)
    rw [List.insertionSort, List.orderedInsert_eq_take_drop,
      List.filter_append]
    by_cases hx : p x = true
    · have htw : ((l.insertionSort r).takeWhile
          (fun b => decide (¬ r x b))).filter p = [] := by
        rw [List.filter_eq_nil_iff]
        intro b hb
        have hnr : ¬ r x b := by
          simpa using List.mem_takeWhile_imp hb
        intro hpb
        exact hnr (h x b hx hpb)
      rw [htw, List.nil_append, List.filter_cons_of_pos hx,
        List.filter_cons_of_pos hx]
      have : ((l.insertionSort r).takeWhile
            (fun b => decide (¬ r x b))).filter p ++
          ((l.insertionSort r).dropWhile
            (fun b => decide (¬ r x b))).filter p = l.filter p := by
        rw [← List.filter_append, hsplit, ih]
      rw [htw, List.nil_append] at this
      rw [this]
    · have hx' : p x = false := by
        cases hpx : p x with
        | true => exact absurd hpx hx
        | false => rfl
      rw [List.filter_cons_of_neg (by simp [hx']),
        List.filter_cons_of_neg (by simp [hx']),
        ← List.filter_append, hsplit, ih]

/-- C4 counterexample: for the table with rows B, A tied at mean 5 and
C with a missing mean, `nsmallest 3` returns rows B, A in original
order — the returned length is 2, not `min 3 |T| = 3`, and the tied
districts are not in ascending name order. -/
theorem top_k_tie_and_length_counterexample :
    (nsmallest 3 tiedMeansT).map Row.distrito = ["B", "A"] ∧
    (nsmallest 3 tiedMeansT).length ≠ min 3 tiedMeansT.length ∧
    ¬ List.Sorted (· ≤ ·) ((nsmallest 3 tiedMeansT).map Row.distrito) := by
  have h1 : (nsmallest 3 tiedMeansT).map Row.distrito = ["B", "A"] := by
    decide
  refine ⟨h1, by decide, ?_⟩
  intro hsorted
  rw [h1] at hsorted
  have := (List.sorted_cons.mp hsorted).1 "A" (by decide)
  simp at this
  exact absurd this (by decide)

/-- C4 amended: `nsmallest`/`nlargest` return `min(k, v)` rows where `v`
is the number of rows with a non-missing `mean` (so `min(k, |T|)` when
no mean is missing), ordered by the ranking key; rows tied on the key
appear in their original table order (pandas `keep='first'`), not
in ascending district-name order: for any key value `q`, the returned
rows with mean `q` form a subsequence of the table. -/
theorem top_k_length_sorted_ties (k : Nat) (t : Table) (q : ℚ) :
    (nsmallest k t).length =
      min k (t.filter (fun r => r.mean.isSome)).length ∧
    (nlargest k t).length =
      min k (t.filter (fun r => r.mean.isSome)).length ∧
    List.Sorted (fun a b : Row => a.mean.getD 0 ≤ b.mean.getD 0)
      (nsmallest k t) ∧
    List.Sorted (fun a b : Row => b.mean.getD 0 ≤ a.mean.getD 0)
      (nlargest k t) ∧
    List.Sublist ((nsmallest k t).filter (fun r => r.mean = some q)) t ∧
    List.Sublist ((nlargest k t).filter (fun r => r.mean = some q)) t := by
  have hmut : ∀ a b : Row,
      decide (a.mean = some q) = true → decide (b.mean = some q) = true →
      a.mean.getD 0 ≤ b.mean.getD 0 := by
    intro a b ha hb
    have ha' : a.mean = some q := of_decide_eq_true ha
    have hb' : b.mean = some q := of_decide_eq_true hb
    rw [ha', hb']
  have hsub : ∀ (rel : Row → Row → Prop) (_ : DecidableRel rel)
      (_ : ∀ a b : Row, decide (a.mean = some q) = true →
        decide (b.mean = some q) = true → rel a b),
      List.Sublist
        ((((t.filter (fun r => r.mean.isSome)).insertionSort rel).take
          k).filter (fun r => r.mean = some q)) t := by
    intro rel hdec hrel
    have h1 : List.Sublist
        ((((t.filter (fun r => r.mean.isSome)).insertionSort rel).take
          k).filter (fun r => r.mean = some q))
        (((t.filter (fun r => r.mean.isSome)).insertionSort rel).filter
          (fun r => r.mean = some q)) :=
      List.Sublist.filter _ (List.take_sublist _ _)
    rw [filter_insertionSort_eq rel _ hrel] at h1
    refine h1.trans ?_
    exact (List.filter_sublist _).trans (List.filter_sublist _)
  refine ⟨?_, ?_, ?_, ?_, ?_, ?_⟩
  · rw [nsmallest, List.length_take, List.length_insertionSort]
  · rw [nlargest, List.length_take, List.length_insertionSort]
  · exact List.Pairwise.sublist (List.take_sublist _ _)
      (List.sorted_insertionSort _ _)
  · exact List.Pairwise.sublist (List.take_sublist _ _)
      (List.sorted_insertionSort _ _)
  · exact hsub _ _ hmut
  · exact hsub _ _ (fun a b ha hb => hmut b a hb ha)

/-- On an ascending index, the `idxmax` scan returns a label of the
index carrying the maximum value, and among equal maxima the smallest
label. -/
theorem runMax_spec (f : String → Nat) :
    ∀ (ds : List String) (a : String),
      List.Sorted (· ≤ ·) (a :: ds) →
      (runMax f a ds = a ∨ runMax f a ds ∈ ds) ∧
      f a ≤ f (runMax f a ds) ∧
      (∀ x ∈ ds, f x ≤ f (runMax f a ds)) ∧
      (∀ x, (x = a ∨ x ∈ ds) → f x = f (runMax f a ds) →
        runMax f a ds ≤ x) := by
  intro ds
  induction ds with
  | nil =>
    intro a _
    exact ⟨Or.inl rfl, le_refl _, by simp, by
      rintro x (rfl | hx) _
      · exact le_refl _
      · simp at hx⟩
  | cons b ds ih =>
    intro a hsort
    have hab : a ≤ b := (List.sorted_cons.mp hsort).1 b (List.mem_cons_self b ds)
    have ha_all : ∀ x ∈ ds, a ≤ x := fun x hx =>
      (List.sorted_cons.mp hsort).1 x (List.mem_cons_of_mem b hx)
    have hsort' : List.Sorted (· ≤ ·) (b :: ds) := (List.sorted_cons.mp hsort).2
    have hsds : List.Sorted (· ≤ ·) ds := (List.sorted_cons.mp hsort').2
    have hstep : runMax f a (b :: ds) =
        runMax f (if f a < f b then b else a) ds := rfl
    by_cases hfab : f a < f b
    · obtain ⟨ih1, ih2, ih3, ih4⟩ := ih b hsort'
      rw [hstep, if_pos hfab]
      refine ⟨?_, ?_, ?_, ?_⟩
      · rcases ih1 with h | h
        · exact Or.inr (by rw [h]; exact List.mem_cons_self b ds)
        · exact Or.inr (List.mem_cons_of_mem b h)
      · exact le_trans (le_of_lt hfab) ih2
      · intro x hx
        rcases List.mem_cons.mp hx with rfl | hx'
        · exact ih2
        · exact ih3 x hx'
      · intro x hx heq
        rcases hx with rfl | hx'
        · have hlt : f x < f (runMax f b ds) := lt_of_lt_of_le hfab ih2
          rw [heq] at hlt
          exact absurd hlt (lt_irrefl _)
        · rcases List.mem_cons.mp hx' with rfl | hx''
          · exact ih4 x (Or.inl rfl) heq
          · exact ih4 x (Or.inr hx'') heq
    · obtain ⟨ih1, ih2, ih3, ih4⟩ :=
        ih a (List.sorted_cons.mpr ⟨ha_all, hsds⟩)
      rw [hstep, if_neg hfab]
      refine ⟨?_, ?_, ?_, ?_⟩
      · rcases ih1 with h | h
        · exact Or.inl h
        · exact Or.inr (List.mem_cons_of_mem b h)
      · exact ih2
      · intro x hx
        rcases List.mem_cons.mp hx with rfl | hx'
        · exact le_trans (le_of_not_lt hfab) ih2
        · exact ih3 x hx'
      · intro x hx heq
        rcases hx with rfl | hx'
        · exact ih4 x (Or.inl rfl) heq
        · rcases List.mem_cons.mp hx' with rfl | hx''
          · have h1 : f x ≤ f a := le_of_not_lt hfab
            have h2 : f a = f (runMax f a ds) :=
              le_antisymm ih2 (heq ▸ h1)
            exact le_trans (ih4 a (Or.inl rfl) h2) hab
          · exact ih4 x (Or.inr hx'') heq

/-- A department is a group key of the grouped subset exactly when its
group has at least one row. -/
theorem mem_sortedDeptKeys_iff (sub : Table) (d : String) :
    d ∈ sortedDeptKeys sub ↔
      0 < (sub.filter (fun r => r.departamen = d)).length := by
  unfold sortedDeptKeys
  rw [List.mem_insertionSort, List.mem_dedup, List.mem_map]
  constructor
  · rintro ⟨r, hr, hrd⟩
    exact List.length_pos_of_mem
      (List.mem_filter.mpr ⟨hr, by simp [hrd]⟩)
  · intro hpos
    obtain ⟨r, hr⟩ := List.exists_mem_of_length_pos hpos
    have := List.mem_filter.mp hr
    exact ⟨r, this.1, by simpa using this.2⟩

/-- C8: whenever the executive summary names a most-affected department
`d`, some high-risk district lies in `d`, no department has more
high-risk districts than `d`, and every department tying `d`'s count is
at or after `d` in ascending name order — the first such department is
selected. -/
theorem dept_mas_afectado_first_max (datos : Table) (m : Metricas)
    (d : String)
    (hd : (show_executive_summary m datos).deptMasAfectadoShown = some d) :
    (∃ r ∈ classifyHighRisk datos m.umbral_alto_riesgo,
      r.departamen = d) ∧
    (∀ e, riskCountByDept datos m.umbral_alto_riesgo e ≤
      riskCountByDept datos m.umbral_alto_riesgo d) ∧
    (∀ e, riskCountByDept datos m.umbral_alto_riesgo e =
      riskCountByDept datos m.umbral_alto_riesgo d → d ≤ e) := by
  have hshow : deptMasAfectado datos m.umbral_alto_riesgo = some d := hd
  unfold deptMasAfectado at hshow
  cases hk : sortedDeptKeys (classifyHighRisk datos m.umbral_alto_riesgo)
    with
  | nil =>
    rw [hk] at hshow
    exact absurd hshow (by simp [idxmaxBy])
  | cons a ks =>
    rw [hk] at hshow
    have hd_run : runMax (riskCountByDept datos m.umbral_alto_riesgo) a ks
        = d := by
      simpa [idxmaxBy] using hshow
    have hsorted : List.Sorted (· ≤ ·) (a :: ks) := by
      rw [← hk]
      exact List.sorted_insertionSort _ _
    obtain ⟨r1, r2, r3, r4⟩ :=
      runMax_spec (riskCountByDept datos m.umbral_alto_riesgo) ks a hsorted
    rw [hd_run] at r1 r2 r3 r4
    have hkeys_mem : ∀ e,
        e ∈ sortedDeptKeys (classifyHighRisk datos m.umbral_alto_riesgo) ↔
        0 < riskCountByDept datos m.umbral_alto_riesgo e := fun e =>
      mem_sortedDeptKeys_iff _ e
    have hd_keys :
        d ∈ sortedDeptKeys (classifyHighRisk datos m.umbral_alto_riesgo) := by
      rw [hk]
      rcases r1 with h | h
      · rw [h]; exact List.mem_cons_self _ _
      · exact List.mem_cons_of_mem _ h
    have hd_pos : 0 < riskCountByDept datos m.umbral_alto_riesgo d :=
      (hkeys_mem d).mp hd_keys
    refine ⟨?_, ?_, ?_⟩
    · obtain ⟨r, hr⟩ := List.exists_mem_of_length_pos hd_pos
      have := List.mem_filter.mp hr
      exact ⟨r, this.1, by simpa using this.2⟩
    · intro e
      by_cases he : e ∈ sortedDeptKeys
          (classifyHighRisk datos m.umbral_alto_riesgo)
      · rw [hk] at he
        rcases List.mem_cons.mp he with rfl | he'
        · exact r2
        · exact r3 e he'
      · have : riskCountByDept datos m.umbral_alto_riesgo e = 0 := by
          by_contra hne
          exact he ((hkeys_mem e).mpr (Nat.pos_of_ne_zero hne))
        rw [this]
        exact Nat.zero_le _
    · intro e heq
      have he_pos : 0 < riskCountByDept datos m.umbral_alto_riesgo e := by
        rw [heq]; exact hd_pos
      have he : e ∈ sortedDeptKeys
          (classifyHighRisk datos m.umbral_alto_riesgo) :=
        (hkeys_mem e).mpr he_pos
      rw [hk] at he
      rcases List.mem_cons.mp he with rfl | he'
      · exact r4 e (Or.inl rfl) heq
      · exact r4 e (Or.inr he') heq

/-- C8 witness: on the table whose departments Y and X tie at one
high-risk district each, the summary selects X, the first in ascending
name order. -/
theorem dept_mas_afectado_first_max_witness :
    (∃ r ∈ classifyHighRisk tiedDeptsT
        umbralCincoMetricas.umbral_alto_riesgo, r.departamen = "X") ∧
    (∀ e, riskCountByDept tiedDeptsT
        umbralCincoMetricas.umbral_alto_riesgo e ≤
      riskCountByDept tiedDeptsT
        umbralCincoMetricas.umbral_alto_riesgo "X") ∧
    (∀ e, riskCountByDept tiedDeptsT
        umbralCincoMetricas.umbral_alto_riesgo e =
      riskCountByDept tiedDeptsT
        umbralCincoMetricas.umbral_alto_riesgo "X" → "X" ≤ e) :=
  dept_mas_afectado_first_max tiedDeptsT umbralCincoMetricas "X" (by
    show deptMasAfectado tiedDeptsT 5 = some "X"
    have hkeys : sortedDeptKeys (classifyHighRisk tiedDeptsT 5)
        = ["X", "Y"] := by
      have hlt : ("X" : String) < "Y" :=
        String.lt_iff_toList_lt.mpr (by decide)
      have hsub : classifyHighRisk tiedDeptsT (5 : ℚ) = tiedDeptsT := by
        decide
      rw [hsub]
      unfold sortedDeptKeys
      have hmap : (tiedDeptsT.map Row.departamen).dedup = ["Y", "X"] := by
        decide
      rw [hmap]
      simp only [List.insertionSort, List.orderedInsert]
      rw [if_neg (not_le.mpr hlt)]
    unfold deptMasAfectado
    rw [hkeys]
    have h1 : riskCountByDept tiedDeptsT 5 "X" = 1 := by decide
    have h2 : riskCountByDept tiedDeptsT 5 "Y" = 1 := by decide
    simp [idxmaxBy, runMax, h1, h2])

end TminPeru

